import Mathlib

/-
Shallow embedding of the swarm-coordination core of the AutonomySim
repository (AutonomyLib/modules), together with proofs settling the
frozen claims about it.

Conventions used throughout:
* real_T (a float in the source) is idealised as the exact rationals ℚ;
  every concrete value appearing in the claims is exactly representable
  and the comparisons involved have large margins, so no claim hinges on
  floating-point rounding.
* std::map<std::string, V> is embedded as an association list
  List (String × V); where a claim depends on the map's iteration order
  (ascending keys) the corresponding theorem carries a sortedness
  hypothesis on the list.
* std::map insertion or assignment is mset, lookup is mfind.
* uint64_t timestamps are ℕ.
* Mutexes, network transport and callbacks are not modelled: every
  embedded operation is the single-threaded state transformer of its
  source body.
-/

namespace AutonomySim

/-! ## Association-list counterparts of std::map operations -/

/-- Lookup of a key in an association list (std::map::find). -/
def mfind {α : Type} : List (String × α) → String → Option α
  | [], _ => none
  | (k, v) :: rest, key => if k = key then some v else mfind rest key

/-- Insert-or-assign of a key (std::map::operator[] followed by assignment):
replaces the first binding of the key, appends when absent. -/
def mset {α : Type} : List (String × α) → String → α → List (String × α)
  | [], key, v => [(key, v)]
  | (k, w) :: rest, key, v =>
    if k = key then (key, v) :: rest else (k, w) :: mset rest key v

/-! ## Geometry (VectorMath.hpp types, idealised over ℚ) -/

/-- Vector3r from the source, components idealised as ℚ. -/
@[ext]
structure Vector3r where
  x : ℚ
  y : ℚ
  z : ℚ
deriving DecidableEq, Repr

instance : Add Vector3r := ⟨fun a b => ⟨a.x + b.x, a.y + b.y, a.z + b.z⟩⟩
instance : Sub Vector3r := ⟨fun a b => ⟨a.x - b.x, a.y - b.y, a.z - b.z⟩⟩

/-- Scalar multiple of a vector. -/
def Vector3r.smul (c : ℚ) (v : Vector3r) : Vector3r := ⟨c * v.x, c * v.y, c * v.z⟩

/-- Cross product of two vectors (Eigen cross). -/
def Vector3r.cross (a b : Vector3r) : Vector3r :=
  ⟨a.y * b.z - a.z * b.y, a.z * b.x - a.x * b.z, a.x * b.y - a.y * b.x⟩

/-- Zero vector (Vector3r::Zero in the source). -/
def Vector3r.zero : Vector3r := ⟨0, 0, 0⟩

/-- Squared Euclidean norm of the difference of two points.  The source's
calculateDistance returns (p1 - p2).norm(); the square root leaves ℚ, so
the embedding works with the squared distance and passes the distance
itself as a parameter constrained by this function. -/
def distSq (p q : Vector3r) : ℚ :=
  (p.x - q.x) * (p.x - q.x) + (p.y - q.y) * (p.y - q.y) + (p.z - q.z) * (p.z - q.z)

/-- Quaternionr (w-first convention), components idealised as ℚ. -/
@[ext]
structure Quaternionr where
  w : ℚ
  x : ℚ
  y : ℚ
  z : ℚ
deriving DecidableEq, Repr

/-- Identity quaternion (Quaternionr::Identity). -/
def Quaternionr.identity : Quaternionr := ⟨1, 0, 0, 0⟩

/-- Vector part of a quaternion. -/
def Quaternionr.vec (q : Quaternionr) : Vector3r := ⟨q.x, q.y, q.z⟩

/-- Rotation of a vector by a quaternion, exactly as Eigen's
QuaternionBase::_transformVector computes quat * vec:
uv := 2 (q.vec × v); result := v + w uv + q.vec × uv.
FormationControl::rotateVector(vec, quat) is quat * vec. -/
def rotateVector (v : Vector3r) (q : Quaternionr) : Vector3r :=
  let uv := Vector3r.smul 2 (q.vec.cross v)
  v + Vector3r.smul q.w uv + q.vec.cross uv

/-! ## FormationControl (modules/control/FormationControl.cpp)

Only the pieces of FormationControl reached by the claims are embedded:
the Line branch of getDesiredPosition.  The other formation branches use
transcendental functions (cos/sin) or are unreachable from the claims. -/

/-- Vehicle state fields read by getDesiredPosition (position and
orientation of the leader). -/
structure VehicleState where
  position : Vector3r
  orientation : Quaternionr
deriving DecidableEq, Repr

/-- FormationControl::computeLineFormation: y offset is
(index - total / 2.0f) * spacing; note the source divides by 2.0f, a
floating (real) division, not an integer one. -/
def computeLineFormation (spacing : ℚ) (index total : ℤ) : Vector3r :=
  ⟨0, ((index : ℚ) - (total : ℚ) / 2) * spacing, 0⟩

/-- FormationControl::getDesiredPosition specialised to the Line branch:
the offset is rotated by the leader orientation and added to the leader
position. -/
def getDesiredPositionLine (spacing : ℚ) (leader : VehicleState)
    (vehicle_id num_vehicles : ℤ) : Vector3r :=
  leader.position + rotateVector (computeLineFormation spacing vehicle_id num_vehicles)
    leader.orientation

/-- Leader state of the line-formation scenario in the spec: position
(0,0,10), identity orientation. -/
def lineLeader : VehicleState := ⟨⟨0, 0, 10⟩, Quaternionr.identity⟩

/-! ## NANDAFramework (modules/ai/NANDAFramework.cpp)

The fields of AgentState, SwarmDecision and Task that no embedded
operation and no claim reads (velocity, orientation, behavior,
description, priority, durations, deadlines, parameters) are omitted. -/

/-- Admissible result of the source's std::sort with the comparator
a.second > b.second: a permutation of the input sorted by non-increasing
second component.  The C++ standard guarantees nothing more — std::sort
is not stable, so the relative order of equal elements is unspecified.
The embedding passes the sort routine used by reassignRoles and
allocateTasks as a parameter, and the theorems quantify over every
routine whose outputs satisfy this predicate. -/
def IsSortOf (input output : List (String × ℚ)) : Prop :=
  output.Perm input ∧ output.Sorted (fun x y => y.2 ≤ x.2)

/-- One admissible sort routine: stable descending insertion sort (keeps
equal elements in input order). -/
def sortDesc (l : List (String × ℚ)) : List (String × ℚ) :=
  l.insertionSort (fun x y => y.2 ≤ x.2)

/-- Another admissible sort routine: insertion with a strict comparison,
which reverses the relative order of equal elements — a legitimate
std::sort outcome that breaks ties against the input order. -/
def sortDescAnti (l : List (String × ℚ)) : List (String × ℚ) :=
  l.insertionSort (fun x y => y.2 < x.2)

namespace NANDA

/-- AgentRole enum from NANDAFramework.hpp. -/
inductive AgentRole where
  | Leader | Scout | Worker | Guardian | Relay | Specialist | Adaptive
deriving DecidableEq, Repr

/-- DecisionMode enum from NANDAFramework.hpp. -/
inductive DecisionMode where
  | Centralized | Distributed | Consensus | Hierarchical | Democratic
deriving DecidableEq, Repr

/-- AgentState fields read by reassignRoles, calculateTaskFitness and
allocateTasks. -/
structure AgentState where
  agent_id : String
  position : Vector3r
  energy_level : ℚ
  capabilities : List (String × ℚ)
  assigned_tasks : List String
deriving DecidableEq, Repr

/-- SwarmDecision from NANDAFramework.hpp; votes maps agent id to
confidence. -/
structure SwarmDecision where
  decision_id : String
  mode : DecisionMode
  participating_agents : List String
  votes : List (String × ℚ)
  consensus_threshold : ℚ
  finalized : Bool
  outcome : String
deriving DecidableEq, Repr

/-- Task from NANDAFramework.hpp. -/
structure Task where
  task_id : String
  location : Vector3r
  required_capabilities : List String
  assigned_agents : List String
  status : String
  completion_percentage : ℚ
deriving DecidableEq, Repr

/-- Default-constructed Task (empty id, zero location, status pending,
completion 0). -/
def Task.defaultTask : Task :=
  ⟨"", Vector3r.zero, [], [], "pending", 0⟩

instance : Inhabited Task := ⟨Task.defaultTask⟩

/-- Sum of the vote confidences of a decision. -/
def votesSum (d : SwarmDecision) : ℚ := (d.votes.map (·.2)).sum

/-- Arithmetic mean of the vote confidences of a decision
(total_confidence / votes.size() in finalizeDecision). -/
def votesMean (d : SwarmDecision) : ℚ := votesSum d / (d.votes.length : ℚ)

/-- Body of NANDAFramework::finalizeDecision once the decision is found
and its votes are nonempty: mark finalized, outcome approved when the
mean confidence reaches the threshold, else rejected.  The vote count is
not consulted. -/
def finalizeOutcome (d : SwarmDecision) : SwarmDecision :=
  if d.consensus_threshold ≤ votesMean d then
    { d with finalized := true, outcome := "approved" }
  else
    { d with finalized := true, outcome := "rejected" }

/-- NANDAFramework::finalizeDecision on the decisions map: returns false
leaving the map unchanged when the decision is missing or has no votes;
otherwise writes the finalized decision back and returns true exactly in
the approved case. -/
def finalizeDecision (decisions : List (String × SwarmDecision)) (decision_id : String) :
    Bool × List (String × SwarmDecision) :=
  match mfind decisions decision_id with
  | none => (false, decisions)
  | some d =>
    if d.votes = [] then (false, decisions)
    else (decide (d.consensus_threshold ≤ votesMean d),
          mset decisions decision_id (finalizeOutcome d))

/-- Per-decision step of NANDAFramework::processDecisions: finalized
decisions are skipped; Centralized decisions are approved as soon as any
vote exists; Distributed decisions finalize as "distributed"; Consensus
decisions invoke the finalizeDecision body once the vote count reaches
the participant count; other modes are untouched. -/
def processOneDecision (d : SwarmDecision) : SwarmDecision :=
  if d.finalized then d
  else
    match d.mode with
    | DecisionMode.Centralized =>
      if d.votes = [] then d else { d with finalized := true, outcome := "approved" }
    | DecisionMode.Distributed => { d with finalized := true, outcome := "distributed" }
    | DecisionMode.Consensus =>
      if d.participating_agents.length ≤ d.votes.length then
        (if d.votes = [] then d else finalizeOutcome d)
      else d
    | _ => d

/-- NANDAFramework::processDecisions over the decisions map. -/
def processDecisions (decisions : List (String × SwarmDecision)) :
    List (String × SwarmDecision) :=
  decisions.map (fun p => (p.1, processOneDecision p.2))

/-- Role assigned to the agent at position i of the energy-descending
order, for a swarm of n agents, per NANDAFramework::reassignRoles:
leader_count = max(1, n/10) capped by n, scout_count = n/5,
guardian_count = relay_count = n/10, remainder Workers (all counts with
C++ integer division). -/
def roleForIndex (n i : ℕ) : AgentRole :=
  let leaders := min (max 1 (n / 10)) n
  if i < leaders then AgentRole.Leader
  else if i < leaders + n / 5 then AgentRole.Scout
  else if i < leaders + n / 5 + n / 10 then AgentRole.Guardian
  else if i < leaders + n / 5 + n / 10 + n / 10 then AgentRole.Relay
  else AgentRole.Worker

/-- NANDAFramework::reassignRoles, abstracted to the (agent_id,
energy_level) projection of the agents map, which is everything the
function reads; it returns the role written to each agent.  The input
list stands for the agents_ map in its iteration order (ascending id).
The source sorts with std::sort and the comparator a.second > b.second
and then assigns roles by sorted position.  std::sort constrains its
result only up to IsSortOf (the order of equal-energy agents is
unspecified), so the embedding takes the sort routine as the parameter
sortFn; theorems quantify over every sortFn whose outputs satisfy
IsSortOf. -/
def reassignRoles (agents : List (String × ℚ))
    (sortFn : List (String × ℚ) → List (String × ℚ)) : List (String × AgentRole) :=
  if agents = [] then []
  else (sortFn agents).enum.map (fun p => ((p.2).1, roleForIndex agents.length p.1))

/-- Sum of the agent's values for the task's required capabilities;
none when any required capability is missing (calculateTaskFitness
returns 0 in that case). -/
def sumRequiredCaps (required : List String) (caps : List (String × ℚ)) : Option ℚ :=
  match required with
  | [] => some 0
  | c :: rest =>
    match mfind caps c with
    | none => none
    | some v => (sumRequiredCaps rest caps).map (fun s => v + s)

/-- NANDAFramework::calculateTaskFitness.  dist is the Euclidean
distance calculateDistance(agent.position, task.location); the square
root leaves ℚ, so it is passed as a parameter (theorems about concrete
inputs check dist^2 = distSq and 0 ≤ dist).  fitness = capability sum
· 1/(1 + 0.01·dist) · energy · 1/(1 + assigned task count), or 0 when a
required capability is missing. -/
def calculateTaskFitness (task : Task) (agent : AgentState) (dist : ℚ) : ℚ :=
  match sumRequiredCaps task.required_capabilities agent.capabilities with
  | none => 0
  | some s =>
    s * (1 / (1 + dist * (1 / 100))) * agent.energy_level
      * (1 / (1 + (agent.assigned_tasks.length : ℚ)))

/-- Allocation step of NANDAFramework::allocateTasks for one pending
task: agents with positive fitness are collected in map order and sorted
by descending fitness with std::sort, whose result is constrained only
up to IsSortOf (the order of equal-fitness candidates is unspecified);
the sort routine is therefore the parameter sortFn, as in reassignRoles.
The head of the sorted candidate list becomes the sole assignee with
status "assigned"; a task with no positive-fitness agent is left
unchanged. -/
def allocateOne (agents : List AgentState) (d : Vector3r → Vector3r → ℚ)
    (sortFn : List (String × ℚ) → List (String × ℚ)) (t : Task) : Task :=
  match (sortFn (agents.filterMap (fun a =>
    if 0 < calculateTaskFitness t a (d a.position t.location) then
      some (a.agent_id, calculateTaskFitness t a (d a.position t.location))
    else none))).head? with
  | none => t
  | some best => { t with assigned_agents := [best.1], status := "assigned" }

/-- NANDAFramework::allocateTasks over the tasks map: every pending task
is allocated (tasks are independent, so the iteration order of the map
is immaterial). -/
def allocateTasks (tasks : List (String × Task)) (agents : List AgentState)
    (d : Vector3r → Vector3r → ℚ) (sortFn : List (String × ℚ) → List (String × ℚ)) :
    List (String × Task) :=
  tasks.map (fun p =>
    (p.1, if p.2.status = "pending" then allocateOne agents d sortFn p.2 else p.2))

/-- NANDAFramework::createTask: rejected while not running; otherwise
the task (with a generated id when the given one is empty) is inserted
and its id returned.  gen stands for generateId("task"). -/
def createTask (tasks : List (String × Task)) (running : Bool) (gen : String) (t : Task) :
    String × List (String × Task) :=
  if running = false then ("", tasks)
  else
    let id := if t.task_id = "" then gen else t.task_id
    (id, mset tasks id { t with task_id := id })

/-- NANDAFramework::assignTask: sets the assignee list and status
"assigned" when the task exists. -/
def assignTask (tasks : List (String × Task)) (task_id : String) (agent_ids : List String) :
    Bool × List (String × Task) :=
  match mfind tasks task_id with
  | none => (false, tasks)
  | some t => (true, mset tasks task_id { t with assigned_agents := agent_ids, status := "assigned" })

/-- NANDAFramework::updateTaskProgress: stores the given completion
percentage unclamped and sets status "in_progress". -/
def updateTaskProgress (tasks : List (String × Task)) (task_id : String) (p : ℚ) :
    Bool × List (String × Task) :=
  match mfind tasks task_id with
  | none => (false, tasks)
  | some t => (true, mset tasks task_id { t with completion_percentage := p, status := "in_progress" })

/-- NANDAFramework::completeTask: sets completion 1 and status
"completed". -/
def completeTask (tasks : List (String × Task)) (task_id : String) :
    Bool × List (String × Task) :=
  match mfind tasks task_id with
  | none => (false, tasks)
  | some t => (true, mset tasks task_id { t with completion_percentage := 1, status := "completed" })

/-- Task invariant stated by the spec: completion within [0,1] and a
completed task fully complete. -/
def TaskInv (t : Task) : Prop :=
  0 ≤ t.completion_percentage ∧ t.completion_percentage ≤ 1 ∧
    (t.status = "completed" → t.completion_percentage = 1)

instance (t : Task) : Decidable (TaskInv t) := by
  unfold TaskInv; infer_instance

/-- Task stores reachable through the four task operations when creation
inputs satisfy the task invariant and progress arguments lie in [0,1]. -/
inductive TasksReachableOK : List (String × Task) → Prop where
  | init : TasksReachableOK []
  | create (ts : List (String × Task)) (r : Bool) (gen : String) (t : Task) :
      TasksReachableOK ts → TaskInv t → TasksReachableOK (createTask ts r gen t).2
  | assign (ts : List (String × Task)) (tid : String) (ids : List String) :
      TasksReachableOK ts → TasksReachableOK (assignTask ts tid ids).2
  | progress (ts : List (String × Task)) (tid : String) (p : ℚ) :
      TasksReachableOK ts → 0 ≤ p → p ≤ 1 → TasksReachableOK (updateTaskProgress ts tid p).2
  | complete (ts : List (String × Task)) (tid : String) :
      TasksReachableOK ts → TasksReachableOK (completeTask ts tid).2

end NANDA

/-! ## AgenticSwarmController missions (modules/ai/AgenticSwarmController.cpp) -/

namespace Swarm

/-- SwarmState enum from AgenticSwarmController.hpp. -/
inductive SwarmState where
  | Initializing | Idle | Planning | Executing | Adapting | Emergency | Completed | Failed
deriving DecidableEq, Repr

/-- Mission fields read by updateMissions.  tasks holds the mission's
embedded task copies; updateMissions reads only their task ids and looks
the live tasks up in the NANDA framework. -/
structure Mission where
  mission_id : String
  tasks : List NANDA.Task
  state : SwarmState
  completion_percentage : ℚ
deriving DecidableEq, Repr

/-- NANDAFramework::getTask as used by updateMissions: the stored task,
or a default-constructed Task (completion 0) when the id is unknown. -/
def getTaskOrDefault (nandaTasks : List (String × NANDA.Task)) (task_id : String) : NANDA.Task :=
  (mfind nandaTasks task_id).getD NANDA.Task.defaultTask

/-- Per-mission body of AgenticSwarmController::updateMissions: missions
not in Executing are skipped; an Executing mission with tasks gets
completion = mean of the live completion percentages of its tasks, and
moves to Completed when that mean reaches 1.  The nanda_framework_
pointer is modelled as always present. -/
def updateOneMission (nandaTasks : List (String × NANDA.Task)) (m : Mission) : Mission :=
  if m.state ≠ SwarmState.Executing then m
  else if m.tasks = [] then m
  else
    let total := (m.tasks.map (fun t => (getTaskOrDefault nandaTasks t.task_id).completion_percentage)).sum
    let c := total / (m.tasks.length : ℚ)
    { m with completion_percentage := c,
             state := if 1 ≤ c then SwarmState.Completed else m.state }

/-- AgenticSwarmController::updateMissions over the missions map. -/
def updateMissions (missions : List (String × Mission)) (nandaTasks : List (String × NANDA.Task)) :
    List (String × Mission) :=
  missions.map (fun p => (p.1, updateOneMission nandaTasks p.2))

end Swarm

/-! ## A2AProtocol (modules/communication/A2AProtocol.cpp) -/

namespace A2A

/-- MessageType enum from A2AProtocol.hpp. -/
inductive MessageType where
  | Proposal | Accept | Reject | Counter | Request | Response | Broadcast | Heartbeat | Emergency
deriving DecidableEq, Repr

/-- Message from A2AProtocol.hpp (priority and ttl omitted: no embedded
operation reads them). -/
structure Message where
  message_id : String
  sender_id : String
  receiver_id : String
  mtype : MessageType
  content : String
  data : List (String × String)
  timestamp : ℕ
deriving DecidableEq, Repr

/-- Proposal from A2AProtocol.hpp (fields read by acceptProposal). -/
structure Proposal where
  proposal_id : String
  proposer_id : String
  votes : List String
  expiry_timestamp : ℕ
deriving DecidableEq, Repr

/-- Consensus from A2AProtocol.hpp. -/
structure Consensus where
  consensus_id : String
  topic : String
  votes : List (String × String)
  required_votes : ℕ
  achieved : Bool
  timestamp : ℕ
deriving DecidableEq, Repr

/-- ProtocolConfig fields read by the embedded operations. -/
structure Config where
  agent_id : String
  message_buffer_size : ℕ
deriving DecidableEq, Repr

/-- State of an A2AProtocol instance (message queue, proposals map,
consensus map).  Callbacks are not modelled (none registered). -/
structure State where
  running : Bool
  config : Config
  message_queue : List Message
  proposals : List (String × Proposal)
  consensus_map : List (String × Consensus)
deriving DecidableEq, Repr

/-- A2AProtocol::validateMessage: nonempty sender and positive
timestamp. -/
def validateMessage (m : Message) : Bool :=
  m.sender_id ≠ "" && m.timestamp > 0

/-- A2AProtocol::sendMessage: fails while not running or on an invalid
message; otherwise appends to the queue and, when the queue then exceeds
message_buffer_size, silently erases the oldest entry. -/
def sendMessage (st : State) (m : Message) : Bool × State :=
  if st.running = false ∨ validateMessage m = false then (false, st)
  else
    (true, { st with message_queue :=
      if st.config.message_buffer_size < (st.message_queue ++ [m]).length then
        (st.message_queue ++ [m]).drop 1
      else st.message_queue ++ [m] })

/-- A2AProtocol::receiveMessages: returns the whole queue and clears
it. -/
def receiveMessages (st : State) : List Message × State :=
  (st.message_queue, { st with message_queue := [] })

/-- A2AProtocol::acceptProposal: when the proposal exists, appends the
agent to its votes unless already present, then sends an Accept message
to the proposer (now stands for getCurrentTimestamp, used both for the
generated message id and the message timestamp). -/
def acceptProposal (st : State) (proposal_id agent_id : String) (now : ℕ) : Bool × State :=
  match mfind st.proposals proposal_id with
  | none => (false, st)
  | some p =>
    let p' := if agent_id ∈ p.votes then p else { p with votes := p.votes ++ [agent_id] }
    let st1 := { st with proposals := mset st.proposals proposal_id p' }
    let msg : Message :=
      { message_id := st.config.agent_id ++ "_" ++ toString now
        sender_id := agent_id
        receiver_id := p.proposer_id
        mtype := MessageType.Accept
        content := ""
        data := [("proposal_id", proposal_id)]
        timestamp := now }
    (true, (sendMessage st1 msg).2)

/-- A2AProtocol::vote: records the vote in the consensus's vote map and
marks the consensus achieved as soon as the vote count reaches
required_votes; no confidence threshold exists on this path. -/
def vote (st : State) (consensus_id agent_id voteValue : String) : Bool × State :=
  match mfind st.consensus_map consensus_id with
  | none => (false, st)
  | some c =>
    let c := { c with votes := mset c.votes agent_id voteValue }
    let c := if c.required_votes ≤ c.votes.length then { c with achieved := true } else c
    (true, { st with consensus_map := mset st.consensus_map consensus_id c })

end A2A

/-! ## MCPServer context store (modules/communication/MCPServer.cpp) -/

namespace MCP

/-- ContextData fields read by publishContext, validateContext and the
eviction pass (the kinematic and perception payload fields are
omitted). -/
structure ContextData where
  agent_id : String
  mission_state : String
  timestamp : ℕ
deriving DecidableEq, Repr

/-- ServerConfig fields read by the context operations; the timeout is
kept in milliseconds as computed by cleanupOldContext. -/
structure Config where
  context_buffer_size : ℕ
  context_timeout_ms : ℕ
deriving DecidableEq, Repr

/-- State of the MCP context store. -/
structure State where
  running : Bool
  config : Config
  context_history : List (String × List ContextData)
deriving DecidableEq, Repr

/-- Subtraction of uint64_t values as C++ computes current_time -
ctx.timestamp (wrapping modulo 2^64). -/
def u64sub (a b : ℕ) : ℕ := (a % 2 ^ 64 + 2 ^ 64 - b % 2 ^ 64) % 2 ^ 64

/-- MCPServer::validateContext: nonempty agent id and positive
timestamp. -/
def validateContext (c : ContextData) : Bool :=
  c.agent_id ≠ "" && c.timestamp > 0

/-- MCPServer::cleanupOldContext: purges from every history any snapshot
with current_time - timestamp > timeout (uint64 arithmetic). -/
def cleanupOldContext (st : State) (now : ℕ) : State :=
  { st with context_history := st.context_history.map (fun p =>
      (p.1, p.2.filter (fun c => ¬ st.config.context_timeout_ms < u64sub now c.timestamp))) }

/-- MCPServer::publishContext: fails (store untouched) while not running
or on an invalid snapshot; otherwise appends to the agent's history,
drops the oldest entry when the buffer size is exceeded, then runs the
eviction pass. -/
def publishContext (st : State) (now : ℕ) (c : ContextData) : Bool × State :=
  if st.running = false ∨ validateContext c = false then (false, st)
  else
    let h := ((mfind st.context_history c.agent_id).getD []) ++ [c]
    let h := if st.config.context_buffer_size < h.length then h.drop 1 else h
    (true, cleanupOldContext { st with context_history := mset st.context_history c.agent_id h } now)

/-- MCPServer::queryContext: empty agent id returns the latest snapshot
of every agent; otherwise the agent's full history, or the empty list
when the agent never published. -/
def queryContext (st : State) (agent_id : String) : List ContextData :=
  if agent_id = "" then
    st.context_history.filterMap (fun p => p.2.getLast?)
  else
    (mfind st.context_history agent_id).getD []

end MCP

/-! ## DelayLine (include/common/DelayLine.hpp) -/

namespace Delay

/-- Modelled from the spec: ClockBase and its elapsedBetween are not
under src/ (only DelayLine.hpp is).  Per the spec, time points are read
from the monotonic clock and elapsed_between(a, b) is their difference;
the embedding carries time points as ℚ in the same unit as the delay. -/
def elapsedBetween (now t : ℚ) : ℚ := now - t

/-- DelayLine state: pending values and their push times, the configured
delay and the latched output. -/
structure DelayLine (T : Type) where
  values : List T
  times : List ℚ
  delay : ℚ
  last_value : T
  last_time : ℚ
deriving DecidableEq, Repr

/-- DelayLine::push_back at the current time (time_offset 0). -/
def push {T : Type} (st : DelayLine T) (v : T) (now : ℚ) : DelayLine T :=
  { st with values := st.values ++ [v], times := st.times ++ [now] }

/-- DelayLine::update at the current time: when the queue is nonempty
and the front entry's age reaches the delay, that single front entry is
latched as the output and popped; otherwise nothing happens. -/
def update {T : Type} (st : DelayLine T) (now : ℚ) : DelayLine T :=
  match st.times with
  | [] => st
  | t :: trest =>
    if st.delay ≤ elapsedBetween now t then
      match st.values with
      | [] => st
      | v :: vrest =>
        { st with values := vrest, times := trest, last_value := v, last_time := t }
    else st

/-- Repeated updates at the given times, in order. -/
def runUpdates {T : Type} (st : DelayLine T) : List ℚ → DelayLine T
  | [] => st
  | t :: rest => runUpdates (update st t) rest

/-- DelayLine::getOutput: the latched output. -/
def getOutput {T : Type} (st : DelayLine T) : T := st.last_value

/-- DelayLine::resetImplementation: clears the queue and the latched
output (T() for the value, 0 for the time). -/
def resetDelayLine {T : Type} [Inhabited T] (st : DelayLine T) : DelayLine T :=
  { st with values := [], times := [], last_value := default, last_time := 0 }

end Delay

/-! ## Concrete inputs appearing in the claims -/

/-- Consensus decision with three participants and a single recorded
vote of confidence 0.9 against threshold 0.7, used to exercise a direct
finalizeDecision call. -/
def oneVoteDecision : NANDA.SwarmDecision :=
  { decision_id := "d1", mode := NANDA.DecisionMode.Consensus,
    participating_agents := ["a", "b", "c"], votes := [("a", 9/10)],
    consensus_threshold := 7/10, finalized := false, outcome := "" }

/-- Decisions map holding only oneVoteDecision. -/
def oneVoteDecisions : List (String × NANDA.SwarmDecision) := [("d1", oneVoteDecision)]

/-- Consensus decision of the spec scenario: required_votes 3 (three
participants), threshold 0.7, votes a:0.8, b:0.9, c:0.6. -/
def specConsensusDecision : NANDA.SwarmDecision :=
  { decision_id := "d2", mode := NANDA.DecisionMode.Consensus,
    participating_agents := ["a", "b", "c"],
    votes := [("a", 4/5), ("b", 9/10), ("c", 3/5)],
    consensus_threshold := 7/10, finalized := false, outcome := "" }

/-- Decisions map holding only specConsensusDecision. -/
def specConsensusDecisions : List (String × NANDA.SwarmDecision) := [("d2", specConsensusDecision)]

/-- A2AProtocol state holding a consensus with required_votes 1 and no
votes yet. -/
def oneVoteA2AState : A2A.State :=
  { running := true, config := { agent_id := "agent_0", message_buffer_size := 1000 },
    message_queue := [], proposals := [],
    consensus_map := [("c1",
      { consensus_id := "c1", topic := "topic", votes := [], required_votes := 1,
        achieved := false, timestamp := 1 })] }

/-- Agent A of the task-allocation scenario: {sensing:0.5}, position
(0,0,0), energy 1, no assigned tasks. -/
def agentA : NANDA.AgentState :=
  { agent_id := "A", position := ⟨0, 0, 0⟩, energy_level := 1,
    capabilities := [("sensing", 1/2)], assigned_tasks := [] }

/-- Agent B of the task-allocation scenario: {sensing:0.9}, position
(100,0,0), energy 1, no assigned tasks. -/
def agentB : NANDA.AgentState :=
  { agent_id := "B", position := ⟨100, 0, 0⟩, energy_level := 1,
    capabilities := [("sensing", 9/10)], assigned_tasks := [] }

/-- Pending task of the allocation scenario: requires sensing, located
at the origin. -/
def specAllocTask : NANDA.Task :=
  { task_id := "t1", location := ⟨0, 0, 0⟩, required_capabilities := ["sensing"],
    assigned_agents := [], status := "pending", completion_percentage := 0 }

/-- Tasks map of the allocation scenario. -/
def specAllocTasks : List (String × NANDA.Task) := [("t1", specAllocTask)]

/-- Euclidean distance oracle for the allocation scenario: 0 between
equal points and 100 between the two distinct points that occur. -/
def specAllocDist (p q : Vector3r) : ℚ := if p = q then 0 else 100

/-- First of two agents with identical fitness for the allocation tie
scenario: capability sensing = 1, located at the task, full energy. -/
def tieAgentA : NANDA.AgentState :=
  { agent_id := "A", position := ⟨0, 0, 0⟩, energy_level := 1,
    capabilities := [("sensing", 1)], assigned_tasks := [] }

/-- Second tie agent: identical to tieAgentA except for the larger
agent id. -/
def tieAgentB : NANDA.AgentState :=
  { agent_id := "B", position := ⟨0, 0, 0⟩, energy_level := 1,
    capabilities := [("sensing", 1)], assigned_tasks := [] }

/-- Eleven agents with ids already in energy-descending order, used to
evaluate reassignRoles at n = 11. -/
def eleven : List (String × ℚ) :=
  [("a", 11), ("b", 10), ("c", 9), ("d", 8), ("e", 7), ("f", 6),
   ("g", 5), ("h", 4), ("i", 3), ("j", 2), ("k", 1)]

/-- Three agents with unsorted energies for exercising reassignRoles. -/
def threeAgents : List (String × ℚ) := [("x", 1/2), ("y", 3/4), ("z", 1/4)]

/-- Fresh DelayLine of naturals with delay 0.1 s and zero initial
output. -/
def delayLine0 : Delay.DelayLine ℕ :=
  { values := [], times := [], delay := 1/10, last_value := 0, last_time := 0 }

/-- DelayLine of the spec scenario after pushing value 1 at t = 0 and
value 2 at t = 0.05. -/
def delayLinePushed : Delay.DelayLine ℕ :=
  Delay.push (Delay.push delayLine0 1 0) 2 (1/20)

/-- Mission of the mission-progress scenario: Executing with two
embedded task stubs referring to live tasks t1 and t2. -/
def specMission : Swarm.Mission :=
  { mission_id := "m1",
    tasks := [{ NANDA.Task.defaultTask with task_id := "t1" },
              { NANDA.Task.defaultTask with task_id := "t2" }],
    state := Swarm.SwarmState.Executing, completion_percentage := 0 }

/-- Missions map of the mission-progress scenario. -/
def specMissions : List (String × Swarm.Mission) := [("m1", specMission)]

/-- Live NANDA tasks backing specMission: completions 0.5 and 1. -/
def specNandaTasks : List (String × NANDA.Task) :=
  [("t1", { NANDA.Task.defaultTask with task_id := "t1", status := "in_progress", completion_percentage := 1/2 }),
   ("t2", { NANDA.Task.defaultTask with task_id := "t2", status := "completed", completion_percentage := 1 })]

/-- MCP store with no published contexts, running. -/
def mcpState0 : MCP.State :=
  { running := true,
    config := { context_buffer_size := 1000, context_timeout_ms := 5000 },
    context_history := [] }

/-- Context snapshot with an empty agent id. -/
def noAgentContext : MCP.ContextData :=
  { agent_id := "", mission_state := "idle", timestamp := 5 }

/-- A2AProtocol state with buffer size 1 and an empty queue, running. -/
def tinyQueueState : A2A.State :=
  { running := true, config := { agent_id := "agent_0", message_buffer_size := 1 },
    message_queue := [], proposals := [], consensus_map := [] }

/-- First message of the queue-bound scenario. -/
def queueMsg1 : A2A.Message :=
  { message_id := "m1", sender_id := "a", receiver_id := "b",
    mtype := A2A.MessageType.Request, content := "first", data := [], timestamp := 1 }

/-- Second message of the queue-bound scenario. -/
def queueMsg2 : A2A.Message :=
  { message_id := "m2", sender_id := "a", receiver_id := "b",
    mtype := A2A.MessageType.Request, content := "second", data := [], timestamp := 2 }

/-- A2AProtocol state holding one proposal with no votes, running. -/
def proposalState : A2A.State :=
  { running := true, config := { agent_id := "agent_0", message_buffer_size := 1000 },
    message_queue := [],
    proposals := [("p1",
      { proposal_id := "p1", proposer_id := "proposer", votes := [], expiry_timestamp := 99 })],
    consensus_map := [] }

/-- Candidate list built by allocateTasks for one task: agents of
positive fitness, in the agents map's iteration order, with their
fitness. -/
def allocCandidates (agents : List NANDA.AgentState) (d : Vector3r → Vector3r → ℚ)
    (t : NANDA.Task) : List (String × ℚ) :=
  agents.filterMap (fun a =>
    if 0 < NANDA.calculateTaskFitness t a (d a.position t.location) then
      some (a.agent_id, NANDA.calculateTaskFitness t a (d a.position t.location))
    else none)

/-- Vote list of a proposal in an A2A state, none when the proposal is
unknown. -/
def votesOf (st : A2A.State) (proposal_id : String) : Option (List String) :=
  (mfind st.proposals proposal_id).map A2A.Proposal.votes

/-! # Theorems

General lemmas about the embedding first, then one theorem (plus
counterexample and witness where required) per claim. -/

/-! ## Component lemmas for the vector operations -/

@[simp]
theorem Vector3r.add_def (a b : Vector3r) :
    a + b = ⟨a.x + b.x, a.y + b.y, a.z + b.z⟩ := rfl

@[simp]
theorem Vector3r.sub_def (a b : Vector3r) :
    a - b = ⟨a.x - b.x, a.y - b.y, a.z - b.z⟩ := rfl

/-! ## Lemmas about the association-list map operations -/

theorem mfind_mset_self {α : Type} (m : List (String × α)) (k : String) (v : α) :
    mfind (mset m k v) k = some v := by
  induction m with
  | nil => simp [mset, mfind]
  | cons p rest ih =>
    obtain ⟨q, w⟩ := p
    by_cases h : q = k
    · simp [mset, h, mfind]
    · simp [mset, h, mfind, ih]

theorem mem_mset {α : Type} {m : List (String × α)} {k : String} {v : α} {q : String × α}
    (h : q ∈ mset m k v) : q = (k, v) ∨ q ∈ m := by
  induction m with
  | nil => simpa [mset] using h
  | cons p rest ih =>
    obtain ⟨k₀, w⟩ := p
    by_cases hk : k₀ = k
    · rw [mset, if_pos hk] at h
      rcases List.mem_cons.mp h with h | h
      · exact Or.inl h
      · exact Or.inr (List.mem_cons_of_mem _ h)
    · rw [mset, if_neg hk] at h
      rcases List.mem_cons.mp h with h | h
      · exact Or.inr (h ▸ List.mem_cons_self _ _)
      · rcases ih h with h | h
        · exact Or.inl h
        · exact Or.inr (List.mem_cons_of_mem _ h)

theorem mfind_map_value {α β : Type} (f : α → β) (l : List (String × α)) (k : String) :
    mfind (l.map (fun p => (p.1, f p.2))) k = (mfind l k).map f := by
  induction l with
  | nil => simp [mfind]
  | cons p rest ih =>
    obtain ⟨q, v⟩ := p
    by_cases h : q = k
    · subst h; simp [mfind]
    · simp [mfind, h, ih]

theorem mfind_allocateTasks (tasks : List (String × NANDA.Task))
    (agents : List NANDA.AgentState) (d : Vector3r → Vector3r → ℚ)
    (sortFn : List (String × ℚ) → List (String × ℚ)) (k : String) :
    mfind (NANDA.allocateTasks tasks agents d sortFn) k =
      (mfind tasks k).map
        (fun t => if t.status = "pending" then NANDA.allocateOne agents d sortFn t else t) :=
  mfind_map_value
    (fun t : NANDA.Task =>
      if t.status = "pending" then NANDA.allocateOne agents d sortFn t else t)
    tasks k

theorem mfind_processDecisions (decisions : List (String × NANDA.SwarmDecision)) (k : String) :
    mfind (NANDA.processDecisions decisions) k =
      (mfind decisions k).map NANDA.processOneDecision :=
  mfind_map_value NANDA.processOneDecision decisions k

theorem mfind_updateMissions (missions : List (String × Swarm.Mission))
    (nandaTasks : List (String × NANDA.Task)) (k : String) :
    mfind (Swarm.updateMissions missions nandaTasks) k =
      (mfind missions k).map (Swarm.updateOneMission nandaTasks) :=
  mfind_map_value (Swarm.updateOneMission nandaTasks) missions k

/-! ## Admissible std::sort results -/

theorem orderedInsert_sorted_ge (r : (String × ℚ) → (String × ℚ) → Prop) [DecidableRel r]
    (hr : ∀ x y, r x y → y.2 ≤ x.2) (hnr : ∀ x y, ¬ r x y → x.2 ≤ y.2)
    (a : String × ℚ) (l : List (String × ℚ))
    (hs : l.Sorted (fun x y => y.2 ≤ x.2)) :
    (l.orderedInsert r a).Sorted (fun x y => y.2 ≤ x.2) := by
  induction l with
  | nil => simp [List.Sorted]
  | cons b rest ih =>
    have hbge : ∀ x ∈ rest, x.2 ≤ b.2 := (List.pairwise_cons.mp hs).1
    have hsrest : rest.Sorted (fun x y => y.2 ≤ x.2) := (List.pairwise_cons.mp hs).2
    rw [List.orderedInsert]
    by_cases h : r a b
    · rw [if_pos h]
      refine List.pairwise_cons.mpr ⟨?_, hs⟩
      intro x hx
      rcases List.mem_cons.mp hx with rfl | hx'
      · exact hr a x h
      · exact le_trans (hbge x hx') (hr a b h)
    · rw [if_neg h]
      refine List.pairwise_cons.mpr ⟨?_, ih hsrest⟩
      intro x hx
      rcases (List.mem_orderedInsert _).mp hx with rfl | hx'
      · exact hnr x b h
      · exact hbge x hx'

theorem insertionSort_sorted_ge (r : (String × ℚ) → (String × ℚ) → Prop) [DecidableRel r]
    (hr : ∀ x y, r x y → y.2 ≤ x.2) (hnr : ∀ x y, ¬ r x y → x.2 ≤ y.2)
    (l : List (String × ℚ)) :
    (l.insertionSort r).Sorted (fun x y => y.2 ≤ x.2) := by
  induction l with
  | nil => simp [List.Sorted]
  | cons a rest ih =>
    rw [List.insertionSort]
    exact orderedInsert_sorted_ge r hr hnr a _ ih

theorem sortDesc_isSortOf : ∀ l, IsSortOf l (sortDesc l) := fun l =>
  ⟨List.perm_insertionSort _ _,
   insertionSort_sorted_ge _ (fun _ _ h => h) (fun _ _ h => le_of_not_le h) l⟩

theorem sortDescAnti_isSortOf : ∀ l, IsSortOf l (sortDescAnti l) := fun l =>
  ⟨List.perm_insertionSort _ _,
   insertionSort_sorted_ge _ (fun _ _ h => le_of_lt h) (fun _ _ h => le_of_not_lt h) l⟩

theorem sorted_ge_head_max {hd : String × ℚ} {t l : List (String × ℚ)}
    (hsort : (hd :: t).Sorted (fun x y => y.2 ≤ x.2)) (hperm : (hd :: t).Perm l) :
    hd ∈ l ∧ ∀ x ∈ l, x.2 ≤ hd.2 := by
  refine ⟨hperm.mem_iff.mp (List.mem_cons_self hd t), ?_⟩
  intro x hx
  rcases List.mem_cons.mp (hperm.mem_iff.mpr hx) with rfl | hx'
  · exact le_refl _
  · exact (List.pairwise_cons.mp hsort).1 x hx'

/-! ## C2: line formation geometry -/

/-- C2 counterexample: with Line formation, 5 agents, spacing 5 and the
leader at (0,0,10) with identity orientation, getDesiredPosition for
index 0 is (0, -12.5, 10), not the (0, -10, 10) the claim lists: the
source divides the total by 2.0f (real division), so the offset for
index i of n is (i - n/2)·spacing with n/2 = 2.5, not the integer 2. -/
theorem C2_line_counterexample :
    getDesiredPositionLine 5 lineLeader 0 5 = ⟨0, -25/2, 10⟩ ∧
    (⟨0, -25/2, 10⟩ : Vector3r) ≠ ⟨0, -10, 10⟩ := by
  constructor
  · ext <;>
      simp [getDesiredPositionLine, computeLineFormation, rotateVector,
        Vector3r.smul, Vector3r.cross, Quaternionr.vec, lineLeader,
        Quaternionr.identity] <;> norm_num
  · intro h
    have hy := congrArg Vector3r.y h
    norm_num at hy

/-- C2 (amended): the formation-frame offset for index i of n is
(0, (i - n/2)·spacing, 0) with real division, so consecutive desired
positions differ by the rotated spacing vector (0, spacing, 0) — along
the y-axis by exactly the spacing for an identity-oriented leader — and
for 5 agents, leader (0,0,10), spacing 5 the desired positions are
(0,-12.5,10), (0,-7.5,10), (0,-2.5,10), (0,2.5,10), (0,7.5,10). -/
theorem C2_line_formation :
    (∀ (s : ℚ) (leader : VehicleState) (i n : ℤ),
      getDesiredPositionLine s leader (i + 1) n =
        getDesiredPositionLine s leader i n + rotateVector ⟨0, s, 0⟩ leader.orientation) ∧
    getDesiredPositionLine 5 lineLeader 0 5 = ⟨0, -25/2, 10⟩ ∧
    getDesiredPositionLine 5 lineLeader 1 5 = ⟨0, -15/2, 10⟩ ∧
    getDesiredPositionLine 5 lineLeader 2 5 = ⟨0, -5/2, 10⟩ ∧
    getDesiredPositionLine 5 lineLeader 3 5 = ⟨0, 5/2, 10⟩ ∧
    getDesiredPositionLine 5 lineLeader 4 5 = ⟨0, 15/2, 10⟩ := by
  refine ⟨?_, ?_, ?_, ?_, ?_, ?_⟩
  · intro s leader i n
    ext <;>
      simp [getDesiredPositionLine, computeLineFormation, rotateVector,
        Vector3r.smul, Vector3r.cross, Quaternionr.vec] <;>
      push_cast <;> ring
  all_goals
    ext <;>
      simp [getDesiredPositionLine, computeLineFormation, rotateVector,
        Vector3r.smul, Vector3r.cross, Quaternionr.vec, lineLeader,
        Quaternionr.identity] <;> norm_num

/-! ## C1: consensus finalization -/

/-- C1 counterexample: NANDAFramework::finalizeDecision finalizes the
three-participant Consensus decision holding a single vote of confidence
0.9 as "approved" — the collected vote count (1) is below the required
count (3 participants), so a decision is finalized approved without the
vote count ever reaching required_votes, contradicting the claimed
"exactly when". -/
theorem C1_consensus_counterexample :
    (NANDA.finalizeDecision oneVoteDecisions "d1").1 = true ∧
    mfind (NANDA.finalizeDecision oneVoteDecisions "d1").2 "d1" =
      some { oneVoteDecision with finalized := true, outcome := "approved" } ∧
    oneVoteDecision.votes.length < oneVoteDecision.participating_agents.length := by
  refine ⟨?_, ?_, ?_⟩
  · simp [NANDA.finalizeDecision, oneVoteDecisions, oneVoteDecision, mfind,
      NANDA.votesMean, NANDA.votesSum]
    norm_num
  · simp [NANDA.finalizeDecision, oneVoteDecisions, oneVoteDecision, mfind, mset,
      NANDA.finalizeOutcome, NANDA.votesMean, NANDA.votesSum]
    norm_num
  · simp [oneVoteDecision]

/-- C1 (amended): the threshold-and-count rule holds only of the
tick-driven processing path, with required_votes read as the participant
count: processDecisions finalizes a non-finalized Consensus decision
with outcome "approved" exactly when the collected votes reach the
participant count and their mean confidence reaches the threshold, and
with outcome "rejected" when the count is reached but the mean falls
short.  A direct finalizeDecision call applies the threshold test alone
(see the counterexample), and A2AProtocol::vote marks its consensus
achieved on the vote count alone with no confidence threshold.  The
spec scenario (3 participants, threshold 0.7, votes 0.8, 0.9, 0.6) is
finalized "approved". -/
theorem C1_consensus_processing :
    (∀ d : NANDA.SwarmDecision, d.mode = NANDA.DecisionMode.Consensus →
      d.finalized = false → d.participating_agents ≠ [] →
      (((NANDA.processOneDecision d).finalized = true ∧
        (NANDA.processOneDecision d).outcome = "approved") ↔
        (d.participating_agents.length ≤ d.votes.length ∧
         d.consensus_threshold ≤ NANDA.votesMean d)) ∧
      (d.participating_agents.length ≤ d.votes.length →
        NANDA.votesMean d < d.consensus_threshold →
        (NANDA.processOneDecision d).finalized = true ∧
        (NANDA.processOneDecision d).outcome = "rejected")) ∧
    mfind (NANDA.processDecisions specConsensusDecisions) "d2" =
      some { specConsensusDecision with finalized := true, outcome := "approved" } ∧
    mfind ((A2A.vote oneVoteA2AState "c1" "a" "approve").2).consensus_map "c1" =
      some { consensus_id := "c1", topic := "topic", votes := [("a", "approve")],
             required_votes := 1, achieved := true, timestamp := 1 } := by
  refine ⟨?_, ?_, ?_⟩
  · intro d hmode hfin hparts
    have hpos : 0 < d.participating_agents.length := List.length_pos.mpr hparts
    by_cases hlen : d.participating_agents.length ≤ d.votes.length
    · have hvotes : d.votes ≠ [] :=
        List.ne_nil_of_length_pos (lt_of_lt_of_le hpos hlen)
      by_cases hth : d.consensus_threshold ≤ NANDA.votesMean d
      · constructor
        · simp [NANDA.processOneDecision, hmode, hfin, hlen, hvotes,
            NANDA.finalizeOutcome, hth]
        · intro _ hlt
          exact absurd hth (not_le.mpr hlt)
      · constructor
        · simp [NANDA.processOneDecision, hmode, hfin, hlen, hvotes,
            NANDA.finalizeOutcome, hth]
        · intro _ _
          simp [NANDA.processOneDecision, hmode, hfin, hlen, hvotes,
            NANDA.finalizeOutcome, hth]
    · constructor
      · simp [NANDA.processOneDecision, hmode, hfin, hlen]
      · intro h
        exact absurd h hlen
  · simp [NANDA.processDecisions, specConsensusDecisions, specConsensusDecision,
      mfind, NANDA.processOneDecision, NANDA.finalizeOutcome, NANDA.votesMean,
      NANDA.votesSum]
    norm_num
  · simp [A2A.vote, oneVoteA2AState, mfind, mset]

/-- C1 witness: the amended processing rule applied to the spec's
consensus scenario yields outcome "approved". -/
theorem C1_consensus_processing_witness :
    (NANDA.processOneDecision specConsensusDecision).finalized = true ∧
    (NANDA.processOneDecision specConsensusDecision).outcome = "approved" := by
  have h := (C1_consensus_processing.1 specConsensusDecision rfl rfl
    (by simp [specConsensusDecision])).1
  refine h.mpr ⟨?_, ?_⟩
  · simp [specConsensusDecision]
  · simp [specConsensusDecision, NANDA.votesMean, NANDA.votesSum]
    norm_num

/-! ## C3: task allocation -/

/-- C3 counterexample: tieAgentA and tieAgentB have identical positive
fitness 1 for the pending task, "A" being the smaller agent id; yet
under the admissible sort routine sortDescAnti — whose output on the
candidate list is a fitness-descending permutation, which is all
std::sort guarantees — allocateTasks assigns the task to "B".  The tie
order of the unstable std::sort is unspecified, so the claimed
smallest-id tie-break is not a property of the program. -/
theorem C3_tie_counterexample :
    NANDA.calculateTaskFitness specAllocTask tieAgentA
      (specAllocDist tieAgentA.position specAllocTask.location) =
      NANDA.calculateTaskFitness specAllocTask tieAgentB
        (specAllocDist tieAgentB.position specAllocTask.location) ∧
    0 < NANDA.calculateTaskFitness specAllocTask tieAgentA
      (specAllocDist tieAgentA.position specAllocTask.location) ∧
    tieAgentA.agent_id < tieAgentB.agent_id ∧
    IsSortOf [("A", 1), ("B", 1)] (sortDescAnti [("A", 1), ("B", 1)]) ∧
    mfind (NANDA.allocateTasks specAllocTasks [tieAgentA, tieAgentB] specAllocDist
      sortDescAnti) "t1" =
      some { specAllocTask with assigned_agents := ["B"], status := "assigned" } := by
  have hfitA : NANDA.calculateTaskFitness specAllocTask tieAgentA
      (specAllocDist tieAgentA.position specAllocTask.location) = 1 := by
    simp [NANDA.calculateTaskFitness, NANDA.sumRequiredCaps, specAllocTask,
      tieAgentA, specAllocDist, mfind]
  have hfitB : NANDA.calculateTaskFitness specAllocTask tieAgentB
      (specAllocDist tieAgentB.position specAllocTask.location) = 1 := by
    simp [NANDA.calculateTaskFitness, NANDA.sumRequiredCaps, specAllocTask,
      tieAgentB, specAllocDist, mfind]
  refine ⟨by rw [hfitA, hfitB], by rw [hfitA]; norm_num, ?_,
    sortDescAnti_isSortOf _, ?_⟩
  · simp [tieAgentA, tieAgentB]
    decide
  · have hcand : allocCandidates [tieAgentA, tieAgentB] specAllocDist specAllocTask =
        [("A", 1), ("B", 1)] := by
      rw [allocCandidates, List.filterMap_cons, List.filterMap_cons, List.filterMap_nil]
      rw [if_pos (by rw [hfitA]; norm_num), if_pos (by rw [hfitB]; norm_num)]
      rw [show tieAgentA.agent_id = "A" from rfl, show tieAgentB.agent_id = "B" from rfl,
        hfitA, hfitB]
    have hsortAnti : sortDescAnti [("A", (1 : ℚ)), ("B", 1)] = [("B", 1), ("A", 1)] := by
      simp [sortDescAnti, List.insertionSort, List.orderedInsert]
    rw [mfind_allocateTasks,
      show mfind specAllocTasks "t1" = some specAllocTask from rfl, Option.map_some',
      if_pos (show specAllocTask.status = "pending" from rfl)]
    rw [show NANDA.allocateOne [tieAgentA, tieAgentB] specAllocDist sortDescAnti
          specAllocTask =
        (match (sortDescAnti (allocCandidates [tieAgentA, tieAgentB] specAllocDist
            specAllocTask)).head? with
          | none => specAllocTask
          | some best =>
            { specAllocTask with assigned_agents := [best.1], status := "assigned" })
        from rfl]
    rw [hcand, hsortAnti]
    rfl

/-- C3 (amended): fitness is the capability sum scaled by
1/(1+0.01·distance), energy and 1/(1+assigned tasks), zero on a missing
capability, and for every pending task with a positive-fitness agent,
allocateTasks makes an agent of maximal positive fitness the sole
assignee and sets status "assigned" — under every admissible result of
the unstable std::sort; the order of equal-fitness candidates is
unspecified, so no tie-break is guaranteed (see the counterexample).
In the spec's two-agent example the fitness values are 0.5 and 0.45
(Euclidean distance 100 for B), so A is assigned under every admissible
sort. -/
theorem C3_task_allocation :
    (∀ (tasks : List (String × NANDA.Task)) (agents : List NANDA.AgentState)
       (d : Vector3r → Vector3r → ℚ)
       (sortFn : List (String × ℚ) → List (String × ℚ)) (k : String) (t : NANDA.Task),
      (∀ l, IsSortOf l (sortFn l)) →
      mfind tasks k = some t →
      t.status = "pending" →
      (∃ a ∈ agents, 0 < NANDA.calculateTaskFitness t a (d a.position t.location)) →
      ∃ b ∈ agents,
        0 < NANDA.calculateTaskFitness t b (d b.position t.location) ∧
        (∀ a ∈ agents, NANDA.calculateTaskFitness t a (d a.position t.location) ≤
          NANDA.calculateTaskFitness t b (d b.position t.location)) ∧
        mfind (NANDA.allocateTasks tasks agents d sortFn) k =
          some { t with assigned_agents := [b.agent_id], status := "assigned" }) ∧
    NANDA.calculateTaskFitness specAllocTask agentA
      (specAllocDist agentA.position specAllocTask.location) = 1/2 ∧
    NANDA.calculateTaskFitness specAllocTask agentB
      (specAllocDist agentB.position specAllocTask.location) = 9/20 ∧
    specAllocDist agentA.position specAllocTask.location = 0 ∧
    (specAllocDist agentB.position specAllocTask.location) ^ 2 =
      distSq agentB.position specAllocTask.location ∧
    (∀ sortFn : List (String × ℚ) → List (String × ℚ),
      (∀ l, IsSortOf l (sortFn l)) →
      mfind (NANDA.allocateTasks specAllocTasks [agentA, agentB] specAllocDist sortFn)
        "t1" = some { specAllocTask with assigned_agents := ["A"], status := "assigned" }) := by
  have hgen : ∀ (tasks : List (String × NANDA.Task)) (agents : List NANDA.AgentState)
      (d : Vector3r → Vector3r → ℚ)
      (sortFn : List (String × ℚ) → List (String × ℚ)) (k : String) (t : NANDA.Task),
      (∀ l, IsSortOf l (sortFn l)) →
      mfind tasks k = some t →
      t.status = "pending" →
      (∃ a ∈ agents, 0 < NANDA.calculateTaskFitness t a (d a.position t.location)) →
      ∃ b ∈ agents,
        0 < NANDA.calculateTaskFitness t b (d b.position t.location) ∧
        (∀ a ∈ agents, NANDA.calculateTaskFitness t a (d a.position t.location) ≤
          NANDA.calculateTaskFitness t b (d b.position t.location)) ∧
        mfind (NANDA.allocateTasks tasks agents d sortFn) k =
          some { t with assigned_agents := [b.agent_id], status := "assigned" } := by
    intro tasks agents d sortFn k t hsfn hfind hstatus hex
    obtain ⟨hperm, hsorted⟩ := hsfn (allocCandidates agents d t)
    obtain ⟨a0, ha0, hfa0⟩ := hex
    have hmem0 : (a0.agent_id, NANDA.calculateTaskFitness t a0 (d a0.position t.location)) ∈
        allocCandidates agents d t := by
      refine List.mem_filterMap.mpr ⟨a0, ha0, ?_⟩
      simp [hfa0]
    cases hcase : sortFn (allocCandidates agents d t) with
    | nil =>
      rw [hcase] at hperm
      rw [hperm.symm.eq_nil] at hmem0
      exact absurd hmem0 (List.not_mem_nil _)
    | cons hd tl =>
      rw [hcase] at hperm hsorted
      obtain ⟨hhd_mem, hmax⟩ := sorted_ge_head_max hsorted hperm
      obtain ⟨b, hb, hfb⟩ := List.mem_filterMap.mp hhd_mem
      by_cases h0 : 0 < NANDA.calculateTaskFitness t b (d b.position t.location)
      · rw [if_pos h0] at hfb
        have hfb' := Option.some.inj hfb
        refine ⟨b, hb, h0, ?_, ?_⟩
        · intro a ha
          by_cases hpa : 0 < NANDA.calculateTaskFitness t a (d a.position t.location)
          · have hmem : (a.agent_id, NANDA.calculateTaskFitness t a (d a.position t.location)) ∈
                allocCandidates agents d t := by
              refine List.mem_filterMap.mpr ⟨a, ha, ?_⟩
              simp [hpa]
            have := hmax _ hmem
            rw [← hfb'] at this
            exact this
          · exact le_trans (le_of_not_lt hpa) (le_of_lt h0)
        · rw [mfind_allocateTasks, hfind]
          rw [Option.map_some']
          rw [if_pos hstatus]
          have halloc : NANDA.allocateOne agents d sortFn t =
              (match (sortFn (allocCandidates agents d t)).head? with
                | none => t
                | some best => { t with assigned_agents := [best.1], status := "assigned" }) := rfl
          rw [halloc, hcase, ← hfb']
          rfl
      · rw [if_neg h0] at hfb
        exact absurd hfb (by simp)
  have hfitA : NANDA.calculateTaskFitness specAllocTask agentA
      (specAllocDist agentA.position specAllocTask.location) = 1/2 := by
    simp [NANDA.calculateTaskFitness, NANDA.sumRequiredCaps, specAllocTask, agentA,
      specAllocDist, mfind]
  have hfitB : NANDA.calculateTaskFitness specAllocTask agentB
      (specAllocDist agentB.position specAllocTask.location) = 9/20 := by
    simp [NANDA.calculateTaskFitness, NANDA.sumRequiredCaps, specAllocTask, agentB,
      specAllocDist, mfind, Vector3r.mk.injEq]
    norm_num
  refine ⟨hgen, hfitA, hfitB, ?_, ?_, ?_⟩
  · simp [specAllocDist, agentA, specAllocTask]
  · simp [specAllocDist, agentB, specAllocTask, distSq, Vector3r.mk.injEq]
    norm_num
  · intro sortFn hsfn
    obtain ⟨b, hb, hpos, hmax, hres⟩ := hgen specAllocTasks [agentA, agentB] specAllocDist
      sortFn "t1" specAllocTask hsfn (by simp [specAllocTasks, mfind]) rfl
      ⟨agentA, by simp, by rw [hfitA]; norm_num⟩
    rcases List.mem_cons.mp hb with rfl | hb'
    · exact hres
    · rcases List.mem_cons.mp hb' with rfl | hb''
      · exfalso
        have h1 := hmax agentA (by simp)
        rw [hfitA, hfitB] at h1
        norm_num at h1
      · simp at hb''

/-- C3 witness: the amended allocation theorem applied to the spec's
two-agent scenario with the admissible routine sortDesc. -/
theorem C3_task_allocation_witness :
    mfind (NANDA.allocateTasks specAllocTasks [agentA, agentB] specAllocDist sortDesc)
      "t1" = some { specAllocTask with assigned_agents := ["A"], status := "assigned" } :=
  C3_task_allocation.2.2.2.2.2 sortDesc sortDesc_isSortOf

/-! ## C4: role reassignment -/

/-- C4 counterexample: with 11 agents of distinct energies every
admissible std::sort result is the same energy-descending order (here
produced by the admissible routine sortDesc), and the claim puts
⌈11/10⌉ = 2 agents at its top into the Leader role; but reassignRoles
computes leader_count = max(1, 11/10) = 1 with integer division, so the
second-highest-energy agent "b" becomes a Scout, not a Leader. -/
theorem C4_roles_counterexample :
    (11 + 9) / 10 = 2 ∧
    mfind (NANDA.reassignRoles eleven sortDesc) "b" = some NANDA.AgentRole.Scout ∧
    NANDA.AgentRole.Scout ≠ NANDA.AgentRole.Leader := by
  refine ⟨by norm_num, ?_, by simp⟩
  simp [NANDA.reassignRoles, sortDesc, eleven, NANDA.roleForIndex, mfind,
    List.insertionSort, List.orderedInsert]

/-- C4 (amended): under every admissible result of the unstable
std::sort — a permutation of the agents sorted by non-increasing
energy, the order of equal-energy agents being unspecified —
reassignRoles assigns the agent at sorted position i the role given by
roleForIndex: the top max(1, ⌊n/10⌋) become Leaders (the claimed
⌈n/10⌉ is wrong for n > 10 unless 10 divides n), the next ⌊n/5⌋
Scouts, the next ⌊n/10⌋ Guardians, the next ⌊n/10⌋ Relays, and the
remainder Workers; at n = 11 with distinct energies the order is
forced and the roles down it are Leader, Scout, Scout, Guardian,
Relay, then Workers. -/
theorem C4_role_reassignment :
    (∀ (agents : List (String × ℚ)) (sortFn : List (String × ℚ) → List (String × ℚ)),
      (∀ l, IsSortOf l (sortFn l)) → agents ≠ [] →
      ∃ σ : List (String × ℚ),
        σ.Perm agents ∧ σ.Sorted (fun x y => y.2 ≤ x.2) ∧
        NANDA.reassignRoles agents sortFn =
          σ.enum.map (fun p => ((p.2).1, NANDA.roleForIndex agents.length p.1))) ∧
    mfind (NANDA.reassignRoles eleven sortDesc) "a" = some NANDA.AgentRole.Leader ∧
    mfind (NANDA.reassignRoles eleven sortDesc) "c" = some NANDA.AgentRole.Scout ∧
    mfind (NANDA.reassignRoles eleven sortDesc) "d" = some NANDA.AgentRole.Guardian ∧
    mfind (NANDA.reassignRoles eleven sortDesc) "e" = some NANDA.AgentRole.Relay ∧
    mfind (NANDA.reassignRoles eleven sortDesc) "f" = some NANDA.AgentRole.Worker ∧
    mfind (NANDA.reassignRoles eleven sortDesc) "k" = some NANDA.AgentRole.Worker := by
  refine ⟨?_, ?_⟩
  · intro agents sortFn hsfn hne
    exact ⟨sortFn agents, (hsfn agents).1, (hsfn agents).2,
      by simp [NANDA.reassignRoles, hne]⟩
  · refine ⟨?_, ?_, ?_, ?_, ?_, ?_⟩ <;>
      simp [NANDA.reassignRoles, sortDesc, eleven, NANDA.roleForIndex, mfind,
        List.insertionSort, List.orderedInsert]

/-- C4 witness: the amended reassignment theorem applied to three
concrete agents with the admissible routine sortDesc. -/
theorem C4_role_reassignment_witness :
    ∃ σ : List (String × ℚ),
      σ.Perm threeAgents ∧ σ.Sorted (fun x y => y.2 ≤ x.2) ∧
      NANDA.reassignRoles threeAgents sortDesc =
        σ.enum.map (fun p => ((p.2).1, NANDA.roleForIndex threeAgents.length p.1)) :=
  C4_role_reassignment.1 threeAgents sortDesc sortDesc_isSortOf (by simp [threeAgents])

/-! ## C5: DelayLine output -/

/-- C5 counterexample: with delay 0.1, value 1 pushed at t = 0 and
value 2 pushed at t = 0.05, a single update at t = 0.2 latches only the
front value 1, although both pushes have aged past the delay and the
claimed formula k = max { i : t - t_i ≥ d } selects value 2: update pops
at most one queued value per call, so getOutput at a time t is not in
general value_k. -/
theorem C5_delayline_counterexample :
    Delay.getOutput (Delay.runUpdates delayLinePushed [1/5]) = 1 ∧
    delayLinePushed.values = [1, 2] ∧
    delayLinePushed.times = [0, 1/20] ∧
    delayLinePushed.delay ≤ Delay.elapsedBetween (1/5) (1/20) ∧
    (1 : ℕ) ≠ 2 := by
  refine ⟨?_, ?_, ?_, ?_, by decide⟩
  · norm_num [Delay.runUpdates, Delay.update, Delay.getOutput, Delay.elapsedBetween,
      delayLinePushed, delayLine0, Delay.push]
  · norm_num [delayLinePushed, delayLine0, Delay.push]
  · norm_num [delayLinePushed, delayLine0, Delay.push]
  · norm_num [delayLinePushed, delayLine0, Delay.push, Delay.elapsedBetween]

/-- C5 (amended): updates transfer queued values one at a time in FIFO
order — after any sequence of updates the queue is the k-th suffix of
the original queue for some k and the latched output is the k-th pushed
value (or the prior output when k = 0) — so getOutput equals value_k
with k = max { i : t - t_i ≥ d } only when at most one queued value
matures between consecutive updates, as in the spec scenario: with
updates at t = 0.11 and t = 0.16 the output is value 1 then value 2.
Reset clears both the queue and the latched output (value T(), time 0),
and the reset state is a fixed point of any further updates. -/
theorem C5_delayline :
    (∀ (T : Type) (st : Delay.DelayLine T) (ts : List ℚ),
      st.values.length = st.times.length →
      ∃ k : ℕ, k ≤ st.values.length ∧
        (Delay.runUpdates st ts).values = st.values.drop k ∧
        (Delay.runUpdates st ts).times = st.times.drop k ∧
        (k = 0 → (Delay.runUpdates st ts).last_value = st.last_value) ∧
        (∀ j : ℕ, k = j + 1 →
          st.values.get? j = some (Delay.runUpdates st ts).last_value)) ∧
    Delay.getOutput (Delay.runUpdates delayLinePushed [11/100]) = 1 ∧
    Delay.getOutput (Delay.runUpdates delayLinePushed [11/100, 16/100]) = 2 ∧
    (∀ (T : Type) [Inhabited T] (st : Delay.DelayLine T) (ts : List ℚ),
      (Delay.resetDelayLine st).values = [] ∧
      (Delay.resetDelayLine st).times = [] ∧
      Delay.getOutput (Delay.resetDelayLine st) = default ∧
      (Delay.resetDelayLine st).last_time = 0 ∧
      Delay.runUpdates (Delay.resetDelayLine st) ts = Delay.resetDelayLine st) := by
  refine ⟨?_, ?_, ?_, ?_⟩
  · intro T st ts hlen
    induction ts generalizing st with
    | nil =>
      exact ⟨0, Nat.zero_le _, rfl, rfl, fun _ => rfl, fun j hj => by cases hj⟩
    | cons t rest ih =>
      obtain ⟨vals, times, dl, lastv, lastt⟩ := st
      cases times with
      | nil =>
        have hrun : Delay.runUpdates ⟨vals, [], dl, lastv, lastt⟩ (t :: rest) =
            Delay.runUpdates ⟨vals, [], dl, lastv, lastt⟩ rest := by
          simp [Delay.runUpdates, Delay.update]
        rw [hrun]
        exact ih _ hlen
      | cons τ τs =>
        cases vals with
        | nil => simp at hlen
        | cons v vs =>
          by_cases hdue : dl ≤ Delay.elapsedBetween t τ
          · have hrun : Delay.runUpdates ⟨v :: vs, τ :: τs, dl, lastv, lastt⟩ (t :: rest) =
                Delay.runUpdates ⟨vs, τs, dl, v, τ⟩ rest := by
              simp [Delay.runUpdates, Delay.update, hdue]
            have hlen2 : vs.length = τs.length := by simpa using hlen
            obtain ⟨k, hk, hv, ht, h0, hj⟩ := ih ⟨vs, τs, dl, v, τ⟩ hlen2
            refine ⟨k + 1, ?_, ?_, ?_, ?_, ?_⟩
            · simpa using Nat.succ_le_succ hk
            · rw [hrun]; simpa using hv
            · rw [hrun]; simpa using ht
            · intro h; cases h
            · intro j hjk
              have hkj : k = j := Nat.succ_injective hjk
              subst hkj
              rw [hrun]
              cases k with
              | zero =>
                simpa using (h0 rfl).symm
              | succ j2 =>
                simpa using hj j2 rfl
          · have hrun : Delay.runUpdates ⟨v :: vs, τ :: τs, dl, lastv, lastt⟩ (t :: rest) =
                Delay.runUpdates ⟨v :: vs, τ :: τs, dl, lastv, lastt⟩ rest := by
              simp [Delay.runUpdates, Delay.update, hdue]
            rw [hrun]
            exact ih _ hlen
  · norm_num [Delay.runUpdates, Delay.update, Delay.getOutput, Delay.elapsedBetween,
      delayLinePushed, delayLine0, Delay.push]
  · norm_num [Delay.runUpdates, Delay.update, Delay.getOutput, Delay.elapsedBetween,
      delayLinePushed, delayLine0, Delay.push]
  · intro T inst st ts
    refine ⟨rfl, rfl, rfl, rfl, ?_⟩
    induction ts with
    | nil => rfl
    | cons t rest ih => exact ih

/-- C5 witness: the FIFO suffix property applied to the pushed delay
line and a single update. -/
theorem C5_delayline_witness :
    ∃ k : ℕ, k ≤ delayLinePushed.values.length ∧
      (Delay.runUpdates delayLinePushed [1/5]).values = delayLinePushed.values.drop k ∧
      (Delay.runUpdates delayLinePushed [1/5]).times = delayLinePushed.times.drop k ∧
      (k = 0 → (Delay.runUpdates delayLinePushed [1/5]).last_value =
        delayLinePushed.last_value) ∧
      (∀ j : ℕ, k = j + 1 →
        delayLinePushed.values.get? j =
          some (Delay.runUpdates delayLinePushed [1/5]).last_value) :=
  C5_delayline.1 ℕ delayLinePushed [1/5] rfl

/-! ## C6: task completion invariant -/

theorem mfind_mem {α : Type} {m : List (String × α)} {k : String} {v : α}
    (h : mfind m k = some v) : (k, v) ∈ m := by
  induction m with
  | nil => simp [mfind] at h
  | cons p rest ih =>
    obtain ⟨q, w⟩ := p
    by_cases hq : q = k
    · subst hq
      rw [mfind, if_pos rfl] at h
      cases h
      exact List.mem_cons_self _ _
    · rw [mfind, if_neg hq] at h
      exact List.mem_cons_of_mem _ (ih h)

/-- C6 counterexample: starting from the empty store, createTask
inserts the default pending task and a single updateTaskProgress call
with argument 1.5 stores completion 1.5 — the operations as exposed do
not clamp, so a task reachable through them violates 0 ≤ completion ≤ 1. -/
theorem C6_task_counterexample :
    (mfind (NANDA.updateTaskProgress
        (NANDA.createTask [] true "t1" NANDA.Task.defaultTask).2 "t1" (3/2)).2 "t1").map
      NANDA.Task.completion_percentage = some (3/2) ∧
    ¬ ((3/2 : ℚ) ≤ 1) := by
  constructor
  · simp [NANDA.createTask, NANDA.updateTaskProgress, NANDA.Task.defaultTask, mfind, mset]
  · norm_num

/-- C6 (amended): when every task handed to createTask satisfies the
invariant and every updateTaskProgress argument lies in [0,1], all tasks
reachable through createTask, assignTask, updateTaskProgress and
completeTask satisfy 0 ≤ completion ≤ 1 and status "completed" implies
completion 1 (completeTask itself establishes the latter
unconditionally). -/
theorem C6_task_invariant :
    ∀ ts : List (String × NANDA.Task), NANDA.TasksReachableOK ts →
      ∀ p ∈ ts, NANDA.TaskInv p.2 := by
  intro ts h
  induction h with
  | init => intro p hp; simp at hp
  | create ts r gen t hts hinv ih =>
    intro p hp
    cases r with
    | false =>
      rw [NANDA.createTask, if_pos rfl] at hp
      exact ih p hp
    | true =>
      rw [NANDA.createTask, if_neg (by simp)] at hp
      rcases mem_mset hp with rfl | hp'
      · simpa [NANDA.TaskInv] using hinv
      · exact ih _ hp'
  | assign ts tid ids hts ih =>
    intro p hp
    cases hf : mfind ts tid with
    | none =>
      rw [NANDA.assignTask] at hp
      rw [hf] at hp
      exact ih p hp
    | some t0 =>
      rw [NANDA.assignTask] at hp
      rw [hf] at hp
      rcases mem_mset hp with rfl | hp'
      · have h0 := ih _ (mfind_mem hf)
        refine ⟨h0.1, h0.2.1, ?_⟩
        intro hc
        simp at hc
      · exact ih _ hp'
  | progress ts tid q hts hq0 hq1 ih =>
    intro p hp
    cases hf : mfind ts tid with
    | none =>
      rw [NANDA.updateTaskProgress] at hp
      rw [hf] at hp
      exact ih p hp
    | some t0 =>
      rw [NANDA.updateTaskProgress] at hp
      rw [hf] at hp
      rcases mem_mset hp with rfl | hp'
      · refine ⟨hq0, hq1, ?_⟩
        intro hc
        simp at hc
      · exact ih _ hp'
  | complete ts tid hts ih =>
    intro p hp
    cases hf : mfind ts tid with
    | none =>
      rw [NANDA.completeTask] at hp
      rw [hf] at hp
      exact ih p hp
    | some t0 =>
      rw [NANDA.completeTask] at hp
      rw [hf] at hp
      rcases mem_mset hp with rfl | hp'
      · exact ⟨by norm_num, le_refl 1, fun _ => rfl⟩
      · exact ih _ hp'

/-- C6 witness: the guarded invariant applied to the store obtained by
creating the default task and reporting progress 0.5 on it. -/
theorem C6_task_invariant_witness :
    NANDA.TaskInv { NANDA.Task.defaultTask with
      task_id := "t1", status := "in_progress", completion_percentage := 1/2 } := by
  have hreach : NANDA.TasksReachableOK
      (NANDA.updateTaskProgress
        (NANDA.createTask [] true "t1" NANDA.Task.defaultTask).2 "t1" (1/2)).2 :=
    NANDA.TasksReachableOK.progress _ _ _
      (NANDA.TasksReachableOK.create [] true "t1" NANDA.Task.defaultTask
        NANDA.TasksReachableOK.init
        (by simp [NANDA.TaskInv, NANDA.Task.defaultTask]))
      (by norm_num) (by norm_num)
  refine C6_task_invariant _ hreach
    ("t1", { NANDA.Task.defaultTask with
      task_id := "t1", status := "in_progress", completion_percentage := 1/2 }) ?_
  simp [NANDA.createTask, NANDA.updateTaskProgress, NANDA.Task.defaultTask, mfind, mset]

/-! ## C7: mission progress -/

/-- C7: updateMissions gives every Executing mission with a non-empty
task list a completion equal to the arithmetic mean of the live
completion percentages of its tasks (looked up in the NANDA framework),
and moves the mission to Completed exactly when that mean reaches 1,
leaving it Executing otherwise; in the concrete scenario with task
completions 0.5 and 1 the mission's completion becomes 0.75 and it
stays Executing. -/
theorem C7_mission_progress :
    (∀ (missions : List (String × Swarm.Mission))
       (nandaTasks : List (String × NANDA.Task)) (k : String) (m : Swarm.Mission),
      mfind missions k = some m →
      m.state = Swarm.SwarmState.Executing →
      m.tasks ≠ [] →
      ∃ m', mfind (Swarm.updateMissions missions nandaTasks) k = some m' ∧
        m'.completion_percentage =
          ((m.tasks.map (fun t =>
            (Swarm.getTaskOrDefault nandaTasks t.task_id).completion_percentage)).sum) /
            (m.tasks.length : ℚ) ∧
        (1 ≤ m'.completion_percentage → m'.state = Swarm.SwarmState.Completed) ∧
        (m'.completion_percentage < 1 → m'.state = Swarm.SwarmState.Executing)) ∧
    mfind (Swarm.updateMissions specMissions specNandaTasks) "m1" =
      some { specMission with completion_percentage := 3/4 } := by
  constructor
  · intro missions nandaTasks k m hfind hstate htasks
    rw [mfind_updateMissions, hfind, Option.map_some']
    refine ⟨Swarm.updateOneMission nandaTasks m, rfl, ?_⟩
    rw [Swarm.updateOneMission, if_neg (by simp [hstate]), if_neg htasks]
    refine ⟨rfl, ?_, ?_⟩
    · intro hc
      simp only at hc ⊢
      rw [if_pos hc]
    · intro hc
      simp only at hc ⊢
      rw [if_neg (not_le.mpr hc), hstate]
  · rw [show Swarm.updateMissions specMissions specNandaTasks =
      [("m1", Swarm.updateOneMission specNandaTasks specMission)] from rfl]
    rw [show mfind [("m1", Swarm.updateOneMission specNandaTasks specMission)] "m1" =
      some (Swarm.updateOneMission specNandaTasks specMission) from rfl]
    refine congrArg some ?_
    rw [Swarm.updateOneMission, if_neg (by simp [specMission]),
      if_neg (by simp [specMission])]
    have emap : specMission.tasks.map (fun t =>
        (Swarm.getTaskOrDefault specNandaTasks t.task_id).completion_percentage) =
        [1/2, 1] := rfl
    simp only [emap]
    norm_num [specMission]

/-- C7 witness: the mission-progress theorem applied to the concrete
scenario. -/
theorem C7_mission_progress_witness :
    ∃ m', mfind (Swarm.updateMissions specMissions specNandaTasks) "m1" = some m' ∧
      m'.completion_percentage =
        ((specMission.tasks.map (fun t =>
          (Swarm.getTaskOrDefault specNandaTasks t.task_id).completion_percentage)).sum) /
          (specMission.tasks.length : ℚ) ∧
      (1 ≤ m'.completion_percentage → m'.state = Swarm.SwarmState.Completed) ∧
      (m'.completion_percentage < 1 → m'.state = Swarm.SwarmState.Executing) :=
  C7_mission_progress.1 specMissions specNandaTasks "m1" specMission
    (by simp [specMissions, mfind]) rfl (by simp [specMission])

/-! ## C8: MCP context store contract -/

/-- C8: publishContext fails and leaves the store untouched whenever the
snapshot's agent id is empty or its timestamp is zero, and queryContext
for a non-empty agent id that never published returns the empty list. -/
theorem C8_mcp_contract :
    (∀ (st : MCP.State) (now : ℕ) (c : MCP.ContextData),
      c.agent_id = "" ∨ c.timestamp = 0 →
      MCP.publishContext st now c = (false, st)) ∧
    (∀ (st : MCP.State) (agent_id : String),
      agent_id ≠ "" →
      mfind st.context_history agent_id = none →
      MCP.queryContext st agent_id = []) := by
  constructor
  · intro st now c h
    have hv : MCP.validateContext c = false := by
      rcases h with h | h <;> simp [MCP.validateContext, h]
    rw [MCP.publishContext, if_pos (Or.inr hv)]
  · intro st aid hne hfind
    rw [MCP.queryContext, if_neg hne, hfind]
    rfl

/-- C8 witness: publishing a snapshot with an empty agent id fails on
the fresh store, and querying an unknown agent returns the empty
list. -/
theorem C8_mcp_contract_witness :
    MCP.publishContext mcpState0 10 noAgentContext = (false, mcpState0) ∧
    MCP.queryContext mcpState0 "ghost" = [] :=
  ⟨C8_mcp_contract.1 mcpState0 10 noAgentContext (Or.inl rfl),
   C8_mcp_contract.2 mcpState0 "ghost" (by simp) (by simp [mcpState0, mfind])⟩

/-! ## C9: A2A message queue bound -/

/-- C9: sendMessage preserves the bound queue-length ≤
message_buffer_size; when the queue is already full a successful send
appends the new message and silently discards the oldest queued one;
concretely, with buffer size 1 both sends are accepted yet
receiveMessages returns only the second message, so the first accepted
message is never received even single-threaded. -/
theorem C9_queue_bound :
    (∀ (st : A2A.State) (m : A2A.Message),
      st.message_queue.length ≤ st.config.message_buffer_size →
      ((A2A.sendMessage st m).2).message_queue.length ≤ st.config.message_buffer_size) ∧
    (∀ (st : A2A.State) (m : A2A.Message),
      st.running = true → A2A.validateMessage m = true →
      st.message_queue.length = st.config.message_buffer_size →
      0 < st.config.message_buffer_size →
      (A2A.sendMessage st m).1 = true ∧
      ((A2A.sendMessage st m).2).message_queue = st.message_queue.drop 1 ++ [m]) ∧
    (A2A.sendMessage tinyQueueState queueMsg1).1 = true ∧
    (A2A.sendMessage (A2A.sendMessage tinyQueueState queueMsg1).2 queueMsg2).1 = true ∧
    (A2A.receiveMessages
      (A2A.sendMessage (A2A.sendMessage tinyQueueState queueMsg1).2 queueMsg2).2).1 =
      [queueMsg2] ∧
    queueMsg1 ∉ [queueMsg2] := by
  refine ⟨?_, ?_, ?_, ?_, ?_, ?_⟩
  · intro st m hlen
    by_cases hg : st.running = false ∨ A2A.validateMessage m = false
    · rw [A2A.sendMessage, if_pos hg]
      exact hlen
    · rw [A2A.sendMessage, if_neg hg]
      by_cases hb : st.config.message_buffer_size < (st.message_queue ++ [m]).length
      · simp only [if_pos hb]
        simp only [List.length_drop, List.length_append, List.length_singleton]
        omega
      · simp only [if_neg hb]
        exact le_of_not_lt hb
  · intro st m hrun hval hlen hpos
    have hg : ¬ (st.running = false ∨ A2A.validateMessage m = false) := by
      simp [hrun, hval]
    have hb : st.config.message_buffer_size < (st.message_queue ++ [m]).length := by
      simp [hlen]
    constructor
    · rw [A2A.sendMessage, if_neg hg]
    · rw [A2A.sendMessage, if_neg hg]
      simp only [if_pos hb]
      rw [List.drop_append_of_le_length]
      rw [hlen]
      exact hpos
  · decide
  · decide
  · decide
  · decide

/-- C9 witness: the bound and discard behaviour applied to the
buffer-size-1 state holding one message. -/
theorem C9_queue_bound_witness :
    ((A2A.sendMessage tinyQueueState queueMsg1).2).message_queue.length ≤
      tinyQueueState.config.message_buffer_size ∧
    (A2A.sendMessage (A2A.sendMessage tinyQueueState queueMsg1).2 queueMsg2).1 = true ∧
    ((A2A.sendMessage (A2A.sendMessage tinyQueueState queueMsg1).2 queueMsg2).2).message_queue =
      ((A2A.sendMessage tinyQueueState queueMsg1).2).message_queue.drop 1 ++ [queueMsg2] :=
  ⟨C9_queue_bound.1 tinyQueueState queueMsg1 (by decide),
   C9_queue_bound.2.1 (A2A.sendMessage tinyQueueState queueMsg1).2 queueMsg2
     (by decide) (by decide) (by decide) (by decide)⟩

/-! ## C10: acceptProposal idempotence -/

theorem sendMessage_proposals (st : A2A.State) (m : A2A.Message) :
    ((A2A.sendMessage st m).2).proposals = st.proposals := by
  by_cases hg : st.running = false ∨ A2A.validateMessage m = false
  · rw [A2A.sendMessage, if_pos hg]
  · rw [A2A.sendMessage, if_neg hg]

theorem acceptProposal_proposals (st : A2A.State) (pid aid : String) (n : ℕ) :
    ((A2A.acceptProposal st pid aid n).2).proposals =
      match mfind st.proposals pid with
      | none => st.proposals
      | some p =>
        mset st.proposals pid
          (if aid ∈ p.votes then p else { p with votes := p.votes ++ [aid] }) := by
  cases hf : mfind st.proposals pid with
  | none => simp [A2A.acceptProposal, hf]
  | some p => simp [A2A.acceptProposal, hf, sendMessage_proposals]

/-- C10: accepting the same proposal twice with the same agent leaves
the proposal's vote list exactly as after accepting once, and a vote
list in which the agent occurs at most once keeps that property across
acceptProposal — the agent is appended only when absent. -/
theorem C10_accept_idempotent :
    (∀ (st : A2A.State) (pid aid : String) (n₁ n₂ : ℕ),
      votesOf (A2A.acceptProposal (A2A.acceptProposal st pid aid n₁).2 pid aid n₂).2 pid =
      votesOf (A2A.acceptProposal st pid aid n₁).2 pid) ∧
    (∀ (st : A2A.State) (pid aid : String) (n : ℕ) (p : A2A.Proposal),
      mfind st.proposals pid = some p →
      p.votes.count aid ≤ 1 →
      ∃ p', mfind ((A2A.acceptProposal st pid aid n).2).proposals pid = some p' ∧
        p'.votes.count aid ≤ 1) := by
  constructor
  · intro st pid aid n₁ n₂
    cases hf : mfind st.proposals pid with
    | none =>
      have h1 : ((A2A.acceptProposal st pid aid n₁).2).proposals = st.proposals := by
        rw [acceptProposal_proposals, hf]
      have h2 : ((A2A.acceptProposal (A2A.acceptProposal st pid aid n₁).2 pid aid n₂).2).proposals =
          st.proposals := by
        rw [acceptProposal_proposals, h1, hf]
      rw [votesOf, votesOf, h1, h2]
    | some p =>
      set p' := if aid ∈ p.votes then p else { p with votes := p.votes ++ [aid] } with hp'
      have haid : aid ∈ p'.votes := by
        rw [hp']
        by_cases hmem : aid ∈ p.votes
        · rw [if_pos hmem]; exact hmem
        · rw [if_neg hmem]; exact List.mem_append_right _ (List.mem_singleton.mpr rfl)
      have h1 : ((A2A.acceptProposal st pid aid n₁).2).proposals =
          mset st.proposals pid p' := by
        rw [acceptProposal_proposals, hf]
      have hfind1 : mfind ((A2A.acceptProposal st pid aid n₁).2).proposals pid = some p' := by
        rw [h1]
        exact mfind_mset_self _ _ _
      have h2 : ((A2A.acceptProposal (A2A.acceptProposal st pid aid n₁).2 pid aid n₂).2).proposals =
          mset ((A2A.acceptProposal st pid aid n₁).2).proposals pid p' := by
        rw [acceptProposal_proposals, hfind1]
        simp [haid]
      rw [votesOf, votesOf, h2, mfind_mset_self, hfind1]
  · intro st pid aid n p hf hcount
    have h1 : ((A2A.acceptProposal st pid aid n).2).proposals =
        mset st.proposals pid
          (if aid ∈ p.votes then p else { p with votes := p.votes ++ [aid] }) := by
      rw [acceptProposal_proposals, hf]
    rw [h1, mfind_mset_self]
    refine ⟨_, rfl, ?_⟩
    by_cases hmem : aid ∈ p.votes
    · rw [if_pos hmem]
      exact hcount
    · rw [if_neg hmem]
      simp only [List.count_append, List.count_singleton]
      rw [List.count_eq_zero.mpr hmem]
      simp

/-- C10 witness: idempotence and the at-most-once property at the
concrete one-proposal state. -/
theorem C10_accept_idempotent_witness :
    votesOf (A2A.acceptProposal (A2A.acceptProposal proposalState "p1" "a" 3).2 "p1" "a" 4).2 "p1" =
      votesOf (A2A.acceptProposal proposalState "p1" "a" 3).2 "p1" ∧
    ∃ p', mfind ((A2A.acceptProposal proposalState "p1" "a" 3).2).proposals "p1" = some p' ∧
      p'.votes.count "a" ≤ 1 :=
  ⟨C10_accept_idempotent.1 proposalState "p1" "a" 3 4,
   C10_accept_idempotent.2 proposalState "p1" "a" 3
     { proposal_id := "p1", proposer_id := "proposer", votes := [], expiry_timestamp := 99 }
     (by decide) (by decide)⟩

end AutonomySim
